import Mathlib

/-!
Shallow embedding of the Telegram MCQ bot (second `index.ts` message handler,
the generation-and-dispatch pipeline) together with the JavaScript semantics
the handler relies on: `JSON.parse`, `String.prototype.indexOf` /
`lastIndexOf` / `substring` / `slice` / `split` / `startsWith` /
`toLowerCase` / `includes`, truthiness, loose `== null`, optional chaining,
and the behaviour of `for...of` and property access on arbitrary values.
-/

/-- JSON values as produced by `JSON.parse`.  Numbers are kept as exact
decimals `mantissa * 10 ^ exp10` (JSON number literals are decimal). -/
inductive JVal where
  | null
  | bool (b : Bool)
  | num (mantissa : Int) (exp10 : Int)
  | str (s : String)
  | arr (items : List JVal)
  | obj (fields : List (String × JVal))

/-- JSON whitespace characters accepted by `JSON.parse`. -/
def isJsonWs (c : Char) : Bool :=
  c == ' ' || c == '\t' || c == '\n' || c == '\r'

/-- Drop leading JSON whitespace. -/
def skipWs : List Char → List Char
  | [] => []
  | c :: cs => if isJsonWs c then skipWs cs else c :: cs

/-- Value of a hexadecimal digit, if any. -/
def hexVal (c : Char) : Option Nat :=
  if '0' ≤ c ∧ c ≤ '9' then some (c.toNat - 48)
  else if 'a' ≤ c ∧ c ≤ 'f' then some (c.toNat - 87)
  else if 'A' ≤ c ∧ c ≤ 'F' then some (c.toNat - 55)
  else none

/-- Single-character JSON string escapes. -/
def escChar (c : Char) : Option Char :=
  if c = '"' then some '"'
  else if c = '\\' then some '\\'
  else if c = '/' then some '/'
  else if c = 'b' then some (Char.ofNat 8)
  else if c = 'f' then some (Char.ofNat 12)
  else if c = 'n' then some '\n'
  else if c = 'r' then some '\r'
  else if c = 't' then some '\t'
  else none

/-- Parse the body of a JSON string literal (the opening quote already
consumed); returns the decoded characters and the input after the closing
quote. -/
def parseStringBody : List Char → Option (List Char × List Char)
  | [] => none
  | c :: cs =>
    if c = '"' then some ([], cs)
    else if c = '\\' then
      match cs with
      | [] => none
      | e :: cs2 =>
        if e = 'u' then
          match cs2 with
          | h1 :: h2 :: h3 :: h4 :: cs3 =>
            match hexVal h1, hexVal h2, hexVal h3, hexVal h4 with
            | some a, some b, some c2, some d =>
              match parseStringBody cs3 with
              | some (body, rest) =>
                some (Char.ofNat (a * 4096 + b * 256 + c2 * 16 + d) :: body, rest)
              | none => none
            | _, _, _, _ => none
          | _ => none
        else
          match escChar e with
          | some ch =>
            match parseStringBody cs2 with
            | some (body, rest) => some (ch :: body, rest)
            | none => none
          | none => none
    else if c.toNat < 32 then none
    else
      match parseStringBody cs with
      | some (body, rest) => some (c :: body, rest)
      | none => none

/-- Decimal digits to a natural number. -/
def digitsToNat (ds : List Char) : Nat :=
  ds.foldl (fun a c => a * 10 + (c.toNat - 48)) 0

/-- Parse a JSON number literal (grammar `-? int frac? exp?`). -/
def parseNumber (cs : List Char) : Option (JVal × List Char) :=
  let negAndRest : Bool × List Char :=
    match cs with
    | '-' :: r => (true, r)
    | _ => (false, cs)
  let neg := negAndRest.1
  let cs1 := negAndRest.2
  let intDs := cs1.takeWhile Char.isDigit
  let rest1 := cs1.dropWhile Char.isDigit
  if intDs = [] then none
  else if 1 < intDs.length && intDs.headD '0' == '0' then none
  else
    let fracPart : Option (List Char × List Char) :=
      match rest1 with
      | '.' :: r =>
        let f := r.takeWhile Char.isDigit
        if f = [] then none else some (f, r.dropWhile Char.isDigit)
      | _ => some ([], rest1)
    match fracPart with
    | none => none
    | some (fracDs, rest2) =>
      let expPart : Option (Int × List Char) :=
        match rest2 with
        | e :: r =>
          if e == 'e' || e == 'E' then
            let signAndRest : Int × List Char :=
              match r with
              | '+' :: rr => (1, rr)
              | '-' :: rr => (-1, rr)
              | _ => (1, r)
            let eds := signAndRest.2.takeWhile Char.isDigit
            if eds = [] then none
            else some (signAndRest.1 * (digitsToNat eds : Int),
                       signAndRest.2.dropWhile Char.isDigit)
          else some (0, rest2)
        | [] => some (0, rest2)
      match expPart with
      | none => none
      | some (ex, rest3) =>
        let mantNat : Int := (digitsToNat (intDs ++ fracDs) : Int)
        let mant : Int := if neg then -mantNat else mantNat
        some (.num mant (ex - (fracDs.length : Int)), rest3)

mutual

/-- Parse one JSON value (fuel-bounded recursive descent). -/
def parseVal : Nat → List Char → Option (JVal × List Char)
  | 0, _ => none
  | Nat.succ fuel, cs0 =>
    match skipWs cs0 with
    | [] => none
    | c :: rest =>
      if c = 'n' then
        match rest with
        | 'u' :: 'l' :: 'l' :: r => some (.null, r)
        | _ => none
      else if c = 't' then
        match rest with
        | 'r' :: 'u' :: 'e' :: r => some (.bool true, r)
        | _ => none
      else if c = 'f' then
        match rest with
        | 'a' :: 'l' :: 's' :: 'e' :: r => some (.bool false, r)
        | _ => none
      else if c = '"' then
        match parseStringBody rest with
        | some (body, r) => some (.str (String.mk body), r)
        | none => none
      else if c = '[' then
        match skipWs rest with
        | ']' :: r => some (.arr [], r)
        | rest1 =>
          match parseItems fuel rest1 with
          | some (vs, r) => some (.arr vs, r)
          | none => none
      else if c = '{' then
        match skipWs rest with
        | '}' :: r => some (.obj [], r)
        | rest1 =>
          match parseFields fuel rest1 with
          | some (fs, r) => some (.obj fs, r)
          | none => none
      else parseNumber (c :: rest)

/-- Parse the comma-separated items of a non-empty JSON array, including the
closing bracket. -/
def parseItems : Nat → List Char → Option (List JVal × List Char)
  | 0, _ => none
  | Nat.succ fuel, cs =>
    match parseVal fuel cs with
    | none => none
    | some (v, rest) =>
      match skipWs rest with
      | ',' :: r =>
        match parseItems fuel r with
        | some (vs, r2) => some (v :: vs, r2)
        | none => none
      | ']' :: r => some ([v], r)
      | _ => none

/-- Parse the comma-separated members of a non-empty JSON object, including
the closing brace. -/
def parseFields : Nat → List Char → Option (List (String × JVal) × List Char)
  | 0, _ => none
  | Nat.succ fuel, cs =>
    match skipWs cs with
    | '"' :: r =>
      match parseStringBody r with
      | none => none
      | some (key, r1) =>
        match skipWs r1 with
        | ':' :: r2 =>
          match parseVal fuel r2 with
          | none => none
          | some (v, r3) =>
            match skipWs r3 with
            | ',' :: r4 =>
              match parseFields fuel r4 with
              | some (fs, r5) => some ((String.mk key, v) :: fs, r5)
              | none => none
            | '}' :: r4 => some ([(String.mk key, v)], r4)
            | _ => none
        | _ => none
    | _ => none

end

/-- Model of `JSON.parse`: parse the whole string as a single JSON value,
allowing surrounding whitespace; `none` models a thrown `SyntaxError`. -/
def JVal.parse (s : String) : Option JVal :=
  match parseVal (2 * s.data.length + 4) s.data with
  | some (v, rest) => if skipWs rest = [] then some v else none
  | none => none

/-- Split a character list at every occurrence of the separator, keeping
empty fragments, as `String.prototype.split` with a one-character separator
does. -/
def splitChars (sep : Char) : List Char → List (List Char)
  | [] => [[]]
  | c :: cs =>
    if c == sep then [] :: splitChars sep cs
    else
      match splitChars sep cs with
      | [] => [[c]]
      | h :: t => (c :: h) :: t

/-- Model of `s.split(sep)` from JavaScript for a one-character separator. -/
def jsSplit (s : String) (sep : Char) : List String :=
  (splitChars sep s.data).map String.mk

/-- Model of `s.toLowerCase()` from JavaScript. -/
def jsToLower (s : String) : String :=
  String.mk (s.data.map Char.toLower)

/-- Does the first list occur at the head of the second? -/
def startsWithChars : List Char → List Char → Bool
  | [], _ => true
  | _ :: _, [] => false
  | a :: as, b :: bs => a == b && startsWithChars as bs

/-- Does the first list occur somewhere inside the second? -/
def occursIn (needle : List Char) : List Char → Bool
  | [] => startsWithChars needle []
  | b :: bs => startsWithChars needle (b :: bs) || occursIn needle bs

/-- Model of `s.includes(sub)` from JavaScript. -/
def jsIncludes (s sub : String) : Bool :=
  occursIn sub.data s.data

/-- Model of `s.startsWith(pre)` from JavaScript. -/
def jsStartsWith (s pre : String) : Bool :=
  startsWithChars pre.data s.data

/-- Model of `s.indexOf(c)` from JavaScript (`-1` when absent). -/
def jsIndexOfChar (s : String) (c : Char) : Int :=
  match s.data.findIdx? (· == c) with
  | some i => (i : Int)
  | none => -1

/-- Model of `s.lastIndexOf(c)` from JavaScript (`-1` when absent). -/
def jsLastIndexOfChar (s : String) (c : Char) : Int :=
  match s.data.reverse.findIdx? (· == c) with
  | some i => ((s.data.length - 1 - i : Nat) : Int)
  | none => -1

/-- Plain substring on character indices: characters `a` to `b` exclusive. -/
def sliceChars (s : String) (a b : Nat) : String :=
  String.mk ((s.data.drop a).take (b - a))

/-- Model of `s.substring(a, b)` from JavaScript: both arguments are clamped
to `[0, length]` and swapped when the start exceeds the end. -/
def jsSubstring (s : String) (a b : Int) : String :=
  let n := s.data.length
  let a2 := min (max a 0).toNat n
  let b2 := min (max b 0).toNat n
  sliceChars s (min a2 b2) (max a2 b2)

/-- The JSON-text selection of the handler (lines 312-317 of the second
`index.ts`): `text.substring(text.indexOf("["), text.lastIndexOf("]") + 1)`. -/
def extractJsonText (text : String) : String :=
  jsSubstring text (jsIndexOfChar text '[') (jsLastIndexOfChar text ']' + 1)

/-- The extraction stage: select the JSON text and run `JSON.parse` on it;
`none` models the inner `catch` being entered. -/
def extractQuestions (text : String) : Option JVal :=
  JVal.parse (extractJsonText text)

/-- JavaScript property access on a parsed JSON value, `fields[k]` with the
last duplicate key winning; `none` models `undefined` (non-object values
other than `null` simply yield `undefined` for the properties used here). -/
def fieldOf : JVal → String → Option JVal
  | .obj fs, k => ((fs.reverse).find? (fun p => p.1 == k)).map (fun p => p.2)
  | _, _ => none

/-- Property access as the code performs it: reading a property of `null`
throws a `TypeError`. -/
def jget (v : JVal) (k : String) : Except String (Option JVal) :=
  match v with
  | .null => .error "TypeError: Cannot read properties of null"
  | w => .ok (fieldOf w k)

/-- JavaScript truthiness of a JSON value. -/
def truthy1 : JVal → Bool
  | .null => false
  | .bool b => b
  | .num m _ => m != 0
  | .str s => s != ""
  | .arr _ => true
  | .obj _ => true

/-- Truthiness of a possibly-`undefined` value. -/
def truthyO : Option JVal → Bool
  | none => false
  | some v => truthy1 v

/-- Model of loose `x == null`: true exactly for `undefined` and `null`. -/
def looselyNull : Option JVal → Bool
  | none => true
  | some .null => true
  | some _ => false

/-- Model of `option.slice(0, 100)` applied to an array element: strings and
arrays support `slice`; any other value throws a `TypeError`. -/
def sliceElem (v : JVal) : Except String JVal :=
  match v with
  | .str s => .ok (.str (String.mk (s.data.take 100)))
  | .arr xs => .ok (.arr (xs.take 100))
  | _ => .error "TypeError: option.slice is not a function"

/-- Left-to-right `map` of `slice` over the elements of an options array;
the first element that throws aborts the whole `map`. -/
def mapSlice : List JVal → Except String (List JVal)
  | [] => .ok []
  | v :: vs =>
    match sliceElem v with
    | .error e => .error e
    | .ok w =>
      match mapSlice vs with
      | .error e => .error e
      | .ok ws => .ok (w :: ws)

/-- Model of `q.options?.map((option) => option.slice(0, 100))` (line 334):
nullish yields `undefined`; an array maps `slice` over its elements (which
throws on non-sliceable elements); any other non-nullish value throws because
it has no `map` method. -/
def mapOptions : Option JVal → Except String (Option (List JVal))
  | none => .ok none
  | some .null => .ok none
  | some (.arr xs) =>
    match mapSlice xs with
    | .ok ys => .ok (some ys)
    | .error e => .error e
  | some _ => .error "TypeError: map is not a function"

/-- Model of `questionText?.slice(0, 200)` (line 346) on a non-nullish value:
strings and arrays support `slice`, everything else throws. -/
def qSlice (v : JVal) : Except String JVal :=
  match v with
  | .null => .ok .null
  | .str s => .ok (.str (String.mk (s.data.take 200)))
  | .arr xs => .ok (.arr (xs.take 200))
  | _ => .error "TypeError: questionText.slice is not a function"

/-- The arguments assembled for one `sendPoll` call. -/
structure PollArgs where
  question : JVal
  options : List JVal
  correctOptionId : JVal
  explanation : Option JVal

/-- One iteration of the dispatch loop up to the guard (lines 333-339): read
the four fields, map `slice` over the options, then either skip the record
(`.ok none`), yield the poll arguments (`.ok some`), or throw out of the
loop (`.error`). -/
def stepRecord (q : JVal) : Except String (Option PollArgs) :=
  match jget q "question" with
  | .error e => .error e
  | .ok questionText =>
    match jget q "options" with
    | .error e => .error e
    | .ok optionsRaw =>
      match mapOptions optionsRaw with
      | .error e => .error e
      | .ok options =>
        match jget q "correctOptionIndex" with
        | .error e => .error e
        | .ok correct =>
          match jget q "explanation" with
          | .error e => .error e
          | .ok explanation =>
            match options with
            | none => .ok none
            | some os =>
              if truthyO questionText = false then .ok none
              else if looselyNull correct then .ok none
              else
                match questionText, correct with
                | some qv, some cv => .ok (some ⟨qv, os, cv, explanation⟩)
                | _, _ => .ok none

/-- Modelled from the spec: the fixed registry of supported model
identifiers.  The source imports `supportedModels` from `./zod_stuff`, a file
that is not part of the repository sources; the spec describes it as a fixed
set of provider-qualified model strings, names `gpt-4o` and the
reasoning-tier `o1-preview` explicitly, and says that some identifiers
contain the provider-specific substring `claude`. -/
def supportedModels : List String :=
  ["gpt-4o", "o1-preview", "claude-3-5-sonnet-latest"]

/-- The two upstream LLM providers selected by the handler. -/
inductive LlmProvider where
  | chatOpenAI
  | chatAnthropic
deriving DecidableEq

/-- Observable effects of one run of the message handler: outbound chat
messages, the LLM invocation (with its routing parameters), and poll-send
attempts. -/
inductive BotAction where
  | sendMessage (text : String)
  | llmInvoke (provider : LlmProvider) (temperature : ℚ) (model : String)
      (prompt : String)
  | sendPoll (question : JVal) (options : List JVal) (correctOptionId : JVal)
      (explanation : Option JVal)

/-- Behaviour of the external collaborators during one run: the outcome of
the (single) LLM call, and the outcome of the `k`-th `sendPoll` call
(`none` = resolves, `some e` = rejects with error text `e`). -/
structure BotEnv where
  llm : Except String String
  pollResult : Nat → Option String

/-- Message of the missing-content check (line 224). -/
def contentMissingMsg : String :=
  "Please provide the content to generate MCQ questions from."

/-- Message of the missing-model-name check (line 232). -/
def modelMissingMsg : String :=
  "Please provide the model name to generate MCQ questions from."

/-- Message of the unrecognized-model check (line 243). -/
def invalidModelMsg : String :=
  "Please provide a valid model name to generate MCQ questions from."

/-- Message of the inner extraction `catch` (line 322). -/
def unparseableMsg : String :=
  "Sorry, the AI returned invalid JSON. Please try again."

/-- Message of the outer generation `catch` (line 370). -/
def genericErrorMsg : String :=
  "Oops, something went wrong while generating MCQs."

/-- Message of the per-poll `catch` (line 355), with the stringified error. -/
def pollErrorMsg (e : String) : String :=
  "Oops, something went wrong while sending the poll: " ++ e

/-- The final summary message (line 366), reporting `questions.length`. -/
def summaryMsg (n : Nat) : String :=
  "Done! I have created " ++ toString n ++ " MCQ question polls."

/-- The fallback help message (line 379). -/
def helpMsg : String :=
  "Hello! Use /make_mcq <model> <prompt> to generate MCQs, supported models are: \n\n "
    ++ String.intercalate ", " supportedModels

/-- Provider routing and sampling temperature (lines 252-263): identifiers
containing `claude` go to `ChatAnthropic` at temperature `0.7`; all others go
to `ChatOpenAI`, at temperature `1` for `o1-preview` and `0.7` otherwise. -/
def routeModel (parsedModelName : String) : LlmProvider × ℚ :=
  if jsIncludes parsedModelName "claude" then (.chatAnthropic, 7/10)
  else (.chatOpenAI, if parsedModelName = "o1-preview" then 1 else 7/10)

/-- The prompt template (lines 266-288) with the user content spliced in. -/
def buildPrompt (content : String) : String :=
  "\n            You are a test question generator. "
    ++ "\n            Given the following content, instructions create multiple-choice questions in JSON format. "
    ++ "\n            Each question should have:"
    ++ "\n              - question: The question text"
    ++ "\n              - options: An array of possible answers"
    ++ "\n              - correctOptionIndex: The index (0-based) of the correct answer in the options array"
    ++ "\n              - explanation: Explanation of the correct answer"
    ++ "\n            Content:"
    ++ "\n            " ++ content
    ++ "\n      "
    ++ "\n            Return ONLY valid JSON; do not include additional text."
    ++ "\n            Example of the JSON structure:"
    ++ "\n            ["
    ++ "\n              \x7b"
    ++ "\n                \"question\": \"Sample question?\","
    ++ "\n                \"options\": [\"Option A\", \"Option B\", \"Option C\", \"Option D\"],"
    ++ "\n                \"correctOptionIndex\": 2,"
    ++ "\n                \"explanation\": \"Explanation of the correct answer\""
    ++ "\n              \x7d,"
    ++ "\n              ..."
    ++ "\n            ]"
    ++ "\n          "

/-- The dispatch loop (lines 332-362).  `k` counts the `sendPoll` calls made
so far (it indexes `BotEnv.pollResult`).  Returns the emitted actions and,
when an iteration throws outside the per-poll `try`, the escaping error. -/
def processQuestions (env : BotEnv) : List JVal → Nat → List BotAction × Option String
  | [], _ => ([], none)
  | q :: rest, k =>
    match stepRecord q with
    | .error e => ([], some e)
    | .ok none => processQuestions env rest k
    | .ok (some args) =>
      match qSlice args.question with
      | .error e =>
        (BotAction.sendMessage (pollErrorMsg e) :: (processQuestions env rest k).1,
         (processQuestions env rest k).2)
      | .ok qv =>
        match env.pollResult k with
        | none =>
          (BotAction.sendPoll (if truthy1 qv then qv else .str "") args.options
              args.correctOptionId args.explanation
            :: (processQuestions env rest (k + 1)).1,
           (processQuestions env rest (k + 1)).2)
        | some err =>
          (BotAction.sendPoll (if truthy1 qv then qv else .str "") args.options
              args.correctOptionId args.explanation
            :: BotAction.sendMessage (pollErrorMsg err)
            :: (processQuestions env rest (k + 1)).1,
           (processQuestions env rest (k + 1)).2)

/-- Model of `for (const q of questions)` applied to an arbitrary parsed
value: arrays iterate their items, strings iterate their characters (as
one-character strings), everything else throws a `TypeError`. -/
def iterValues : JVal → Except String (List JVal)
  | .arr xs => .ok xs
  | .str s => .ok (s.data.map (fun c => .str (String.mk [c])))
  | _ => .error "TypeError: questions is not iterable"

/-- Model of `questions.length` for the values that reach the summary line
(arrays and strings; other values threw during iteration). -/
def jsLength : JVal → Nat
  | .arr xs => xs.length
  | .str s => s.data.length
  | _ => 0

/-- The generation stage (lines 290-376): invoke the LLM, extract and parse
the JSON text, dispatch the polls, send the summary.  The surrounding `try`
catches every error raised in this stage and reports `genericErrorMsg`, so
the stage never throws. -/
def llmStage (env : BotEnv) (provider : LlmProvider) (temperature : ℚ)
    (parsedModelName : String) (prompt : String) : List BotAction :=
  let pre := [BotAction.llmInvoke provider temperature parsedModelName prompt]
  match env.llm with
  | .error _ => pre ++ [.sendMessage genericErrorMsg]
  | .ok text =>
    match extractQuestions text with
    | none => pre ++ [.sendMessage unparseableMsg]
    | some v =>
      match iterValues v with
      | .error _ => pre ++ [.sendMessage genericErrorMsg]
      | .ok items =>
        match processQuestions env items 0 with
        | (acts, some _) => pre ++ acts ++ [.sendMessage genericErrorMsg]
        | (acts, none) => pre ++ acts ++ [.sendMessage (summaryMsg (jsLength v))]

/-- The `/make_mcq` branch (lines 218-376).  Returns the emitted actions
and, when the branch throws (reading `split` of an `undefined` second token,
line 220), the escaping error. -/
def commandFlow (env : BotEnv) (text : String) : List BotAction × Option String :=
  let parts := jsSplit text ' '
  match parts[1]? with
  | none => ([], some "TypeError: Cannot read properties of undefined")
  | some numQsStr =>
    let modelName := (jsSplit numQsStr ' ').headD ""
    let content := String.intercalate " " (parts.drop 2)
    if content = "" then ([.sendMessage contentMissingMsg], none)
    else if modelName = "" then ([.sendMessage modelMissingMsg], none)
    else
      match supportedModels.find?
          (fun m => jsToLower m == jsToLower modelName) with
      | none => ([.sendMessage invalidModelMsg], none)
      | some parsedModelName =>
        let route := routeModel parsedModelName
        (llmStage env route.1 route.2 parsedModelName (buildPrompt content), none)

/-- The body of the message handler before the top-level `catch`
(lines 210-384): ignore messages without (truthy) text, run the command
branch for texts starting with `/make_mcq`, otherwise send the help
message. -/
def handlerBody (env : BotEnv) (text : Option String) : List BotAction × Option String :=
  match text with
  | none => ([], none)
  | some t =>
    if t = "" then ([], none)
    else if jsStartsWith t "/make_mcq" then commandFlow env t
    else ([.sendMessage helpMsg], none)

/-- The full handler (lines 208-388): the top-level `catch` swallows any
escaping error, only logging it, so the second component of the pair is the error
escaping the handler itself. -/
def handleMessageFull (env : BotEnv) (text : Option String) :
    List BotAction × Option String :=
  match handlerBody env text with
  | (acts, some _) => (acts, none)
  | (acts, none) => (acts, none)

/-- Observable actions of one handler run. -/
def handleMessage (env : BotEnv) (text : Option String) : List BotAction :=
  (handleMessageFull env text).1

/-- The poll-send attempts recorded in a trace, in order. -/
def pollsOfA : List BotAction → List BotAction
  | [] => []
  | a :: rest =>
    match a with
    | .sendPoll q o c e => .sendPoll q o c e :: pollsOfA rest
    | _ => pollsOfA rest

/-- The chat messages recorded in a trace, in order. -/
def messagesOf : List BotAction → List String
  | [] => []
  | .sendMessage m :: rest => m :: messagesOf rest
  | _ :: rest => messagesOf rest

/-- First whitespace-delimited keyword of a message text. -/
def firstKeyword (t : String) : String :=
  (jsSplit t ' ').headD ""

/-- Truncation applied to one option by the dispatch loop. -/
def truncOpt (v : JVal) : JVal :=
  match v with
  | .str s => .str (String.mk (s.data.take 100))
  | .arr xs => .arr (xs.take 100)
  | w => w

/-- Records on which one loop iteration cannot throw and dispatches a
string question with string options: an object whose `question` field is
absent, `null` or a string, and whose `options` field is absent, `null` or
an array of strings. -/
def goodRecordB (q : JVal) : Bool :=
  match q with
  | .obj _ =>
    (match fieldOf q "question" with
     | none => true
     | some .null => true
     | some (.str _) => true
     | _ => false)
    &&
    (match fieldOf q "options" with
     | none => true
     | some .null => true
     | some (.arr xs) => xs.all (fun v => match v with | .str _ => true | _ => false)
     | _ => false)
  | _ => false

/-- The guard of the dispatch loop (line 339), phrased on the record: the
record survives when its `question` is truthy, its `options` is not nullish
and its `correctOptionIndex` is not loosely `null`. -/
def survivesB (q : JVal) : Bool :=
  truthyO (fieldOf q "question")
    && !(looselyNull (fieldOf q "options"))
    && !(looselyNull (fieldOf q "correctOptionIndex"))

/-- The question text a surviving good record is dispatched with. -/
def truncatedQuestion (q : JVal) : JVal :=
  match fieldOf q "question" with
  | some (.str s) => .str (String.mk (s.data.take 200))
  | _ => .str ""

/-- The options a surviving good record is dispatched with. -/
def truncatedOptions (q : JVal) : List JVal :=
  match fieldOf q "options" with
  | some (.arr xs) => xs.map truncOpt
  | _ => []

/-- The poll-send attempt a surviving good record produces. -/
def specPoll (q : JVal) : BotAction :=
  .sendPoll (truncatedQuestion q) (truncatedOptions q)
    ((fieldOf q "correctOptionIndex").getD .null) (fieldOf q "explanation")

/-- Environment whose LLM returns the empty string and whose polls succeed. -/
def envOkEmpty : BotEnv := ⟨.ok "", fun _ => none⟩

/-- Environment whose LLM returns `[{}]` and whose polls succeed. -/
def envEmptyObjArr : BotEnv := ⟨.ok "[\x7b\x7d]", fun _ => none⟩

/-- Environment whose LLM returns `5[` and whose polls succeed. -/
def envFiveBracket : BotEnv := ⟨.ok "5[", fun _ => none⟩

/-- Environment whose LLM succeeds and whose first poll send is rejected. -/
def envFirstPollFails : BotEnv :=
  ⟨.ok "", fun k => if k = 0 then some "boom" else none⟩

/-! Auxiliary lemmas about the embedding. -/

theorem findIdx?_lt_length {l : List Char} {p : Char → Bool} {i : Nat}
    (h : l.findIdx? p = some i) : i < l.length :=
  (List.findIdx?_eq_some_iff_findIdx_eq.mp h).1

theorem strMk_ne_empty {l : List Char} (h : l ≠ []) : String.mk l ≠ "" := by
  intro he
  exact h (congrArg String.data he)

theorem take_ne_nil {l : List Char} (h : l ≠ []) (n : Nat) (hn : 0 < n) :
    l.take n ≠ [] := by
  cases l with
  | nil => exact absurd rfl h
  | cons c cs =>
    cases n with
    | zero => exact absurd hn (by omega)
    | succ m => simp [List.take]

theorem string_bne_of_ne {s t : String} (h : s ≠ t) : (s != t) = true := by
  simp [bne_iff_ne, h]

theorem mapSlice_strs {xs : List JVal}
    (h : ∀ v ∈ xs, ∃ s, v = JVal.str s) :
    mapSlice xs = .ok (xs.map truncOpt) := by
  induction xs with
  | nil => rfl
  | cons v rest ih =>
    obtain ⟨s, rfl⟩ := h v (by simp)
    have hrest : mapSlice rest = .ok (rest.map truncOpt) :=
      ih (fun w hw => h w (by simp [hw]))
    simp [mapSlice, sliceElem, hrest, truncOpt]

theorem mk_data_eq (s : String) : String.mk s.data = s := by
  cases s
  rfl

theorem data_ne_nil_of_ne_empty {s : String} (h : s ≠ "") : s.data ≠ [] := by
  intro hl
  apply h
  rw [← mk_data_eq s, hl]

theorem truthy1_take200 {s : String} (h : s ≠ "") :
    truthy1 (.str (String.mk (s.data.take 200))) = true := by
  have hne : String.mk (s.data.take 200) ≠ "" :=
    strMk_ne_empty (take_ne_nil (data_ne_nil_of_ne_empty h) 200 (by omega))
  simp [truthy1, bne_iff_ne, hne]

theorem good_survives_question {q : JVal} (hg : goodRecordB q = true)
    (hs : survivesB q = true) :
    ∃ s, fieldOf q "question" = some (.str s) ∧ s ≠ "" := by
  cases q with
  | obj fs =>
    simp only [goodRecordB, Bool.and_eq_true] at hg
    obtain ⟨hg1, hg2⟩ := hg
    simp only [survivesB, Bool.and_eq_true] at hs
    obtain ⟨⟨hst, _⟩, _⟩ := hs
    cases hqf : fieldOf (JVal.obj fs) "question" with
    | none => rw [hqf] at hst; simp [truthyO] at hst
    | some qv =>
      rw [hqf] at hst hg1
      cases qv with
      | str s =>
        refine ⟨s, rfl, ?_⟩
        simp only [truthyO, truthy1, bne_iff_ne, ne_eq] at hst
        exact hst
      | null => simp [truthyO, truthy1] at hst
      | bool b => simp at hg1
      | num m e => simp at hg1
      | arr xs => simp at hg1
      | obj gs => simp at hg1
  | null => simp [survivesB, fieldOf, truthyO] at hs
  | bool b => simp [survivesB, fieldOf, truthyO] at hs
  | num m e => simp [survivesB, fieldOf, truthyO] at hs
  | str s => simp [survivesB, fieldOf, truthyO] at hs
  | arr xs => simp [survivesB, fieldOf, truthyO] at hs

theorem stepRecord_good {q : JVal} (hg : goodRecordB q = true) :
    stepRecord q =
      .ok (if survivesB q then
        some ⟨(fieldOf q "question").getD .null, truncatedOptions q,
              (fieldOf q "correctOptionIndex").getD .null,
              fieldOf q "explanation"⟩
      else none) := by
  cases q with
  | null => simp [goodRecordB] at hg
  | bool b => simp [goodRecordB] at hg
  | num m e => simp [goodRecordB] at hg
  | str s => simp [goodRecordB] at hg
  | arr xs => simp [goodRecordB] at hg
  | obj fs =>
    simp only [goodRecordB, Bool.and_eq_true] at hg
    obtain ⟨hg1, hg2⟩ := hg
    cases hof : fieldOf (JVal.obj fs) "options" with
    | none =>
      simp [stepRecord, jget, mapOptions, survivesB, looselyNull, hof]
    | some ov =>
      rw [hof] at hg2
      cases ov with
      | null => simp [stepRecord, jget, mapOptions, survivesB, looselyNull, hof]
      | bool b => simp at hg2
      | num m e => simp at hg2
      | str s => simp at hg2
      | obj gs => simp at hg2
      | arr xs =>
        have hstrs : ∀ v ∈ xs, ∃ s, v = JVal.str s := by
          intro v hv
          have := (List.all_eq_true.mp hg2) v hv
          cases v with
          | str s => exact ⟨s, rfl⟩
          | null => simp at this
          | bool b => simp at this
          | num m e => simp at this
          | arr ys => simp at this
          | obj gs => simp at this
        have hms : mapSlice xs = .ok (xs.map truncOpt) := mapSlice_strs hstrs
        cases hqf : fieldOf (JVal.obj fs) "question" with
        | none =>
          simp [stepRecord, jget, mapOptions, survivesB, looselyNull, truthyO,
            hof, hqf, hms]
        | some qv =>
          rw [hqf] at hg1
          cases qv with
          | bool b => simp at hg1
          | num m e => simp at hg1
          | arr ys => simp at hg1
          | obj gs => simp at hg1
          | null =>
            simp [stepRecord, jget, mapOptions, survivesB, looselyNull, truthyO,
              truthy1, hof, hqf, hms]
          | str s =>
            cases hb : (s != "") with
            | false =>
              simp [stepRecord, jget, mapOptions, survivesB, looselyNull,
                truthyO, truthy1, hof, hqf, hms, hb]
            | true =>
              cases hcf : fieldOf (JVal.obj fs) "correctOptionIndex" with
              | none =>
                simp [stepRecord, jget, mapOptions, survivesB, looselyNull,
                  truthyO, truthy1, hof, hqf, hms, hb, hcf]
              | some cv =>
                cases cv <;>
                  simp [stepRecord, jget, mapOptions, survivesB, truthyO,
                    truthy1, looselyNull, truncatedOptions, hof, hqf, hms, hb,
                    hcf]

theorem processQuestions_cons_skip {env : BotEnv} {q : JVal} {rest : List JVal}
    {k : Nat} (hg : goodRecordB q = true) (hs : survivesB q = false) :
    processQuestions env (q :: rest) k = processQuestions env rest k := by
  simp only [processQuestions, stepRecord_good hg, hs]
  simp

theorem processQuestions_cons_ok {env : BotEnv} {q : JVal} {rest : List JVal}
    {k : Nat} (hg : goodRecordB q = true) (hs : survivesB q = true)
    (hpr : env.pollResult k = none) :
    processQuestions env (q :: rest) k =
      (specPoll q :: (processQuestions env rest (k + 1)).1,
       (processQuestions env rest (k + 1)).2) := by
  obtain ⟨s, hqf, hsne⟩ := good_survives_question hg hs
  simp only [processQuestions, stepRecord_good hg, hs, if_true]
  rw [hqf]
  simp only [Option.getD_some, qSlice]
  simp [truthy1_take200 hsne, hpr, specPoll, truncatedQuestion, hqf]

theorem processQuestions_cons_fail {env : BotEnv} {q : JVal} {rest : List JVal}
    {k : Nat} {err : String} (hg : goodRecordB q = true)
    (hs : survivesB q = true) (hpr : env.pollResult k = some err) :
    processQuestions env (q :: rest) k =
      (specPoll q :: BotAction.sendMessage (pollErrorMsg err)
         :: (processQuestions env rest (k + 1)).1,
       (processQuestions env rest (k + 1)).2) := by
  obtain ⟨s, hqf, hsne⟩ := good_survives_question hg hs
  simp only [processQuestions, stepRecord_good hg, hs, if_true]
  rw [hqf]
  simp only [Option.getD_some, qSlice]
  simp [truthy1_take200 hsne, hpr, specPoll, truncatedQuestion, hqf]

theorem processQuestions_good :
    ∀ (qs : List JVal) (env : BotEnv) (k : Nat),
      (∀ q ∈ qs, goodRecordB q = true) →
      (processQuestions env qs k).2 = none ∧
      pollsOfA (processQuestions env qs k).1 =
        (qs.filter survivesB).map specPoll := by
  intro qs
  induction qs with
  | nil => intro env k h; simp [processQuestions, pollsOfA]
  | cons q rest ih =>
    intro env k h
    have hq := h q (List.mem_cons_self q rest)
    have hrest : ∀ r ∈ rest, goodRecordB r = true :=
      fun r hr => h r (List.mem_cons_of_mem q hr)
    cases hs : survivesB q with
    | false =>
      rw [processQuestions_cons_skip hq hs]
      obtain ⟨h1, h2⟩ := ih env k hrest
      exact ⟨h1, by simp [h2, List.filter_cons, hs]⟩
    | true =>
      cases hpr : env.pollResult k with
      | none =>
        rw [processQuestions_cons_ok hq hs hpr]
        obtain ⟨h1, h2⟩ := ih env (k + 1) hrest
        refine ⟨h1, ?_⟩
        simp only [specPoll, pollsOfA] at h2 ⊢
        simp [h2, List.filter_cons, hs, specPoll]
      | some err =>
        rw [processQuestions_cons_fail hq hs hpr]
        obtain ⟨h1, h2⟩ := ih env (k + 1) hrest
        refine ⟨h1, ?_⟩
        simp only [specPoll, pollsOfA] at h2 ⊢
        simp [h2, List.filter_cons, hs, specPoll]

theorem processQuestions_shape :
    ∀ (qs : List JVal) (env : BotEnv) (k : Nat) (a : BotAction),
      a ∈ (processQuestions env qs k).1 →
      (∃ p o c e, a = BotAction.sendPoll p o c e) ∨
      ∃ e, a = BotAction.sendMessage (pollErrorMsg e) := by
  intro qs
  induction qs with
  | nil => intro env k a ha; simp [processQuestions] at ha
  | cons q rest ih =>
    intro env k a ha
    simp only [processQuestions] at ha
    split at ha
    · simp at ha
    · exact ih env k a ha
    · split at ha
      · rcases List.mem_cons.mp ha with rfl | ha2
        · exact Or.inr ⟨_, rfl⟩
        · exact ih env k a ha2
      · split at ha
        · rcases List.mem_cons.mp ha with rfl | ha2
          · exact Or.inl ⟨_, _, _, _, rfl⟩
          · exact ih env (k + 1) a ha2
        · rcases List.mem_cons.mp ha with rfl | ha2
          · exact Or.inl ⟨_, _, _, _, rfl⟩
          · rcases List.mem_cons.mp ha2 with rfl | ha3
            · exact Or.inr ⟨_, rfl⟩
            · exact ih env (k + 1) a ha3

theorem processQuestions_mem_pollError :
    ∀ (qs : List JVal) (env : BotEnv) (k : Nat),
      (∀ q ∈ qs, goodRecordB q = true ∧ survivesB q = true) →
      ∀ (i : Nat) (err : String), i < qs.length →
        env.pollResult (k + i) = some err →
        BotAction.sendMessage (pollErrorMsg err) ∈ (processQuestions env qs k).1 := by
  intro qs
  induction qs with
  | nil => intro env k h i err hi hpr; simp at hi
  | cons q rest ih =>
    intro env k h i err hi hpr
    obtain ⟨hg, hs⟩ := h q (List.mem_cons_self q rest)
    have hrest : ∀ r ∈ rest, goodRecordB r = true ∧ survivesB r = true :=
      fun r hr => h r (List.mem_cons_of_mem q hr)
    cases i with
    | zero =>
      rw [Nat.add_zero] at hpr
      rw [processQuestions_cons_fail hg hs hpr]
      simp
    | succ i =>
      have hpr2 : env.pollResult (k + 1 + i) = some err := by
        rw [show k + 1 + i = k + (i + 1) by omega]
        exact hpr
      have hmem := ih env (k + 1) hrest i err (by simpa using hi) hpr2
      cases hpr0 : env.pollResult k with
      | none =>
        rw [processQuestions_cons_ok hg hs hpr0]
        simp [hmem]
      | some e0 =>
        rw [processQuestions_cons_fail hg hs hpr0]
        simp [hmem]

theorem llmStage_ok_arr {env : BotEnv} {prov : LlmProvider} {temp : ℚ}
    {pm prompt t : String} {qs : List JVal}
    (hllm : env.llm = .ok t)
    (hx : extractQuestions t = some (.arr qs))
    (hpq : (processQuestions env qs 0).2 = none) :
    llmStage env prov temp pm prompt =
      BotAction.llmInvoke prov temp pm prompt
        :: (processQuestions env qs 0).1
        ++ [.sendMessage (summaryMsg qs.length)] := by
  rcases hpq2 : processQuestions env qs 0 with ⟨acts, esc⟩
  rw [hpq2] at hpq
  simp only at hpq
  subst hpq
  simp [llmStage, hllm, hx, iterValues, hpq2, jsLength]

theorem llmStage_unparseable {env : BotEnv} {prov : LlmProvider} {temp : ℚ}
    {pm prompt t : String}
    (hllm : env.llm = .ok t) (hx : extractQuestions t = none) :
    llmStage env prov temp pm prompt =
      [BotAction.llmInvoke prov temp pm prompt, .sendMessage unparseableMsg] := by
  simp [llmStage, hllm, hx]

theorem jsSubstring_of_le {t : String} {i j : Nat} (hi : i ≤ t.data.length)
    (hj : j ≤ t.data.length) (hij : i ≤ j) :
    jsSubstring t (i : Int) (j : Int) = sliceChars t i j := by
  simp only [jsSubstring]
  congr 1 <;> omega

theorem extractJsonText_of_brackets {t : String} {i j : Nat}
    (hf : t.data.findIdx? (· == '[') = some i)
    (hl : jsLastIndexOfChar t ']' = (j : Int))
    (hij : i ≤ j) :
    extractJsonText t = sliceChars t i (j + 1) := by
  have hi : i < t.data.length := findIdx?_lt_length hf
  have hidx : jsIndexOfChar t '[' = (i : Int) := by simp [jsIndexOfChar, hf]
  have hjn : j + 1 ≤ t.data.length := by
    unfold jsLastIndexOfChar at hl
    cases hfr : t.data.reverse.findIdx? (· == ']') with
    | none =>
      rw [hfr] at hl
      simp only at hl
      omega
    | some j2 =>
      rw [hfr] at hl
      simp only at hl
      have hj2 : j2 < t.data.length := by
        have h2 := findIdx?_lt_length hfr
        simpa using h2
      omega
  unfold extractJsonText
  rw [hidx, hl]
  have hc : ((j : Int) + 1) = ((j + 1 : Nat) : Int) := by push_cast; ring
  rw [hc]
  exact jsSubstring_of_le (by omega) hjn (by omega)

theorem good_options_strs {q : JVal} (hg : goodRecordB q = true)
    {xs : List JVal} (heq : fieldOf q "options" = some (.arr xs)) :
    ∀ v ∈ xs, ∃ s, v = JVal.str s := by
  cases q with
  | obj fs =>
    simp only [goodRecordB, Bool.and_eq_true] at hg
    obtain ⟨_, hg2⟩ := hg
    rw [heq] at hg2
    intro v hv
    have hb := (List.all_eq_true.mp hg2) v hv
    cases v with
    | str s => exact ⟨s, rfl⟩
    | null => simp at hb
    | bool b => simp at hb
    | num m e => simp at hb
    | arr ys => simp at hb
    | obj gs => simp at hb
  | null => simp [fieldOf] at heq
  | bool b => simp [fieldOf] at heq
  | num m e => simp [fieldOf] at heq
  | str s => simp [fieldOf] at heq
  | arr ys => simp [fieldOf] at heq

/-- A well-formed surviving record used as concrete input, with an
out-of-range correctOptionIndex (5 with only two options). -/
def wq1 : JVal :=
  .obj [("question", .str "Q1"), ("options", .arr [.str "A", .str "B"]),
        ("correctOptionIndex", .num 5 0)]

/-- A well-formed surviving record used as concrete input. -/
def wq2 : JVal :=
  .obj [("question", .str "Q2"), ("options", .arr [.str "C", .str "D"]),
        ("correctOptionIndex", .num 0 0)]

/-- An empty record: no fields, so the guard skips it. -/
def wSkip : JVal := .obj []

/-- A record whose `options` field is a number: `7..map` throws. -/
def wBadOptions : JVal :=
  .obj [("question", .str "Q1"), ("options", .num 7 0),
        ("correctOptionIndex", .num 0 0)]

/-! Claim theorems. -/

/-- C10: for every inbound message that carries no text field, the handler
returns immediately and produces no actions at all: no reply, no LLM call,
no poll. -/
theorem c10_no_text_ignored (env : BotEnv) :
    handleMessage env none = [] := rfl

/-- C9: no exception escapes the per-message handler: whatever error the
body raises, the top-level catch swallows it (no escaping error) and adds no
user-visible action: the emitted actions are exactly those of the body. -/
theorem c9_no_escape (env : BotEnv) (text : Option String) :
    (handleMessageFull env text).2 = none ∧
    (handleMessageFull env text).1 = (handlerBody env text).1 := by
  unfold handleMessageFull
  rcases handlerBody env text with ⟨acts, esc⟩
  cases esc <;> simp

/-- C8: provider routing and temperature: a resolved name containing the
substring `claude` routes to ChatAnthropic at temperature 0.7; every other
name routes to ChatOpenAI, with temperature 1 exactly when the name is
`o1-preview` and 0.7 for all other names. -/
theorem c8_provider_routing (pm : String) :
    (jsIncludes pm "claude" = true →
      routeModel pm = (.chatAnthropic, 7/10)) ∧
    (jsIncludes pm "claude" = false → pm = "o1-preview" →
      routeModel pm = (.chatOpenAI, 1)) ∧
    (jsIncludes pm "claude" = false → pm ≠ "o1-preview" →
      routeModel pm = (.chatOpenAI, 7/10)) := by
  refine ⟨fun h1 => ?_, fun h1 h2 => ?_, fun h1 h2 => ?_⟩
  · simp [routeModel, h1]
  · subst h2
    simp [routeModel, h1]
  · simp [routeModel, h1, h2]

theorem c8_provider_routing_witness :
    routeModel "claude-3-5-sonnet-latest" = (.chatAnthropic, 7/10) ∧
    routeModel "o1-preview" = (.chatOpenAI, 1) ∧
    routeModel "gpt-4o" = (.chatOpenAI, 7/10) :=
  ⟨(c8_provider_routing "claude-3-5-sonnet-latest").1 (by decide),
   (c8_provider_routing "o1-preview").2.1 (by decide) rfl,
   (c8_provider_routing "gpt-4o").2.2 (by decide) (by decide)⟩

/-- C7 (code bug): for the bare trigger message `/make_mcq` the distinct
missing-model-token reply required by the claim is never sent: the branch throws a
`TypeError` reading `split` of the `undefined` second token before either
check runs, the top-level catch only logs, and the user gets no reply at
all. -/
theorem c7_bare_trigger_silent (env : BotEnv) :
    handleMessage env (some "/make_mcq") = [] ∧
    (handlerBody env (some "/make_mcq")).2 =
      some "TypeError: Cannot read properties of undefined" :=
  ⟨rfl, rfl⟩

/-- C3: for every sequence of validated question entities the dispatcher
issues exactly one attempt per entity, in input order, passing the raw
`correctOptionIndex` through (`specPoll`) without range validation; and a
send failure at offset `i` is reported as its own chat message naming the
error while the remaining attempts still occur (the attempt list stays the
full map regardless of failures). -/
theorem c3_dispatch_per_item (env : BotEnv) (qs : List JVal) (k : Nat)
    (h : ∀ q ∈ qs, goodRecordB q = true ∧ survivesB q = true) :
    pollsOfA (processQuestions env qs k).1 = qs.map specPoll ∧
    (pollsOfA (processQuestions env qs k).1).length = qs.length ∧
    ∀ (i : Nat) (err : String), i < qs.length →
      env.pollResult (k + i) = some err →
      BotAction.sendMessage (pollErrorMsg err) ∈ (processQuestions env qs k).1 := by
  have hg : ∀ q ∈ qs, goodRecordB q = true := fun q hq => (h q hq).1
  obtain ⟨_, h2⟩ := processQuestions_good qs env k hg
  have hfilter : qs.filter survivesB = qs :=
    List.filter_eq_self.mpr (fun q hq => (h q hq).2)
  refine ⟨by rw [h2, hfilter], by rw [h2, hfilter]; simp, ?_⟩
  exact processQuestions_mem_pollError qs env k h

theorem c3_dispatch_per_item_witness :
    pollsOfA (processQuestions envFirstPollFails [wq1, wq2] 0).1 =
      [specPoll wq1, specPoll wq2] ∧
    BotAction.sendMessage (pollErrorMsg "boom")
      ∈ (processQuestions envFirstPollFails [wq1, wq2] 0).1 := by
  have h := c3_dispatch_per_item envFirstPollFails [wq1, wq2] 0 (by decide)
  exact ⟨h.1, h.2.2 0 "boom" (by decide) rfl⟩

/-- C2 (amended): over records whose fields are well-shaped where present
(`goodRecordB`), the dispatch loop is a filtering map: nothing escapes the
loop, records failing the guard are skipped silently with the rest still
processed, surviving records are dispatched in input order (at most one
attempt per input record), with question text truncated to 200 characters
and every option truncated to 100 characters.  (A record with a non-nullish,
non-array `options` field instead throws and aborts the batch; see the
counterexample.) -/
theorem c2_validation_filtering (env : BotEnv) (qs : List JVal) (k : Nat)
    (h : ∀ q ∈ qs, goodRecordB q = true) :
    (processQuestions env qs k).2 = none ∧
    pollsOfA (processQuestions env qs k).1 =
      (qs.filter survivesB).map specPoll ∧
    (pollsOfA (processQuestions env qs k).1).length ≤ qs.length ∧
    (∀ q s, truncatedQuestion q = .str s → s.data.length ≤ 200) ∧
    (∀ q ∈ qs, ∀ o ∈ truncatedOptions q,
      ∃ s, o = JVal.str s ∧ s.data.length ≤ 100) := by
  obtain ⟨h1, h2⟩ := processQuestions_good qs env k h
  refine ⟨h1, h2, ?_, ?_, ?_⟩
  · rw [h2]
    calc ((qs.filter survivesB).map specPoll).length
        = (qs.filter survivesB).length := List.length_map _ _
      _ ≤ qs.length := List.length_filter_le _ _
  · intro q s heq
    unfold truncatedQuestion at heq
    split at heq
    · cases heq
      simp
    · cases heq
      simp
  · intro q hq o ho
    unfold truncatedOptions at ho
    split at ho
    · rename_i xs heq
      obtain ⟨x, hx, rfl⟩ := List.mem_map.mp ho
      obtain ⟨s0, rfl⟩ := good_options_strs (h q hq) heq x hx
      refine ⟨String.mk (s0.data.take 100), rfl, ?_⟩
      simp
    · simp at ho

theorem c2_validation_filtering_witness :
    (processQuestions envOkEmpty [wSkip, wq2] 0).2 = none ∧
    pollsOfA (processQuestions envOkEmpty [wSkip, wq2] 0).1 =
      ([wSkip, wq2].filter survivesB).map specPoll := by
  have h := c2_validation_filtering envOkEmpty [wSkip, wq2] 0 (by decide)
  exact ⟨h.1, h.2.1⟩

theorem c2_validation_filtering_counterexample :
    (processQuestions envOkEmpty [wBadOptions, wq2] 0).1 = [] ∧
    (processQuestions envOkEmpty [wBadOptions, wq2] 0).2 =
      some "TypeError: map is not a function" ∧
    pollsOfA (processQuestions envOkEmpty [wq2] 0).1 = [specPoll wq2] :=
  ⟨rfl, rfl, rfl⟩

/-- C4 (amended): when extraction yields an array and the loop completes
without throwing, exactly one summary message is sent, after all attempts,
and the number it reports is the length of the extracted array — the count
of extracted records, not of attempted dispatches (records skipped by the
guard are still counted; see the counterexample). -/
theorem c4_summary_reports_extracted (env : BotEnv) (prov : LlmProvider)
    (temp : ℚ) (pm prompt t : String) (qs : List JVal)
    (hllm : env.llm = .ok t)
    (hx : extractQuestions t = some (.arr qs))
    (hg : ∀ q ∈ qs, goodRecordB q = true) :
    llmStage env prov temp pm prompt =
      BotAction.llmInvoke prov temp pm prompt
        :: (processQuestions env qs 0).1
        ++ [.sendMessage (summaryMsg qs.length)] ∧
    ∀ a ∈ (processQuestions env qs 0).1,
      (∃ p o c e, a = BotAction.sendPoll p o c e) ∨
      ∃ e, a = BotAction.sendMessage (pollErrorMsg e) :=
  ⟨llmStage_ok_arr hllm hx (processQuestions_good qs env 0 hg).1,
   fun a ha => processQuestions_shape qs env 0 a ha⟩

theorem c4_summary_reports_extracted_witness :
    llmStage envEmptyObjArr .chatOpenAI (7/10) "gpt-4o" "p" =
      BotAction.llmInvoke .chatOpenAI (7/10) "gpt-4o" "p"
        :: (processQuestions envEmptyObjArr [JVal.obj []] 0).1
        ++ [.sendMessage (summaryMsg 1)] :=
  (c4_summary_reports_extracted envEmptyObjArr .chatOpenAI (7/10) "gpt-4o" "p"
    "[\x7b\x7d]" [JVal.obj []] rfl rfl (by decide)).1

theorem c4_summary_counterexample :
    pollsOfA (handleMessage envEmptyObjArr (some "/make_mcq gpt-4o x")) = [] ∧
    handleMessage envEmptyObjArr (some "/make_mcq gpt-4o x") =
      [BotAction.llmInvoke .chatOpenAI (7/10) "gpt-4o" (buildPrompt "x"),
       .sendMessage (summaryMsg 1)] ∧
    summaryMsg 1 ≠ summaryMsg 0 :=
  ⟨rfl, rfl, by decide⟩

/-- C1 (amended): when the text has a first `[` at index `i` and a last `]`
at index `j` with `i ≤ j`, and the substring spanning them parses as JSON,
extraction succeeds and yields exactly that parse; and whenever the selected
substring fails to parse, the generation stage sends exactly the
unparseable-response message and zero polls.  (When the text has no `[`, no
`]`, or the last `]` before the first `[`, JavaScript `substring` clamps and
swaps the indices, so the selected substring can itself be valid JSON and
extraction then does not fail; see the counterexample.) -/
theorem c1_extraction_behaviour :
    (∀ (t : String) (i j : Nat) (v : JVal),
      t.data.findIdx? (· == '[') = some i →
      jsLastIndexOfChar t ']' = (j : Int) →
      i ≤ j →
      JVal.parse (sliceChars t i (j + 1)) = some v →
      extractQuestions t = some v) ∧
    (∀ (env : BotEnv) (prov : LlmProvider) (temp : ℚ) (pm prompt t : String),
      env.llm = .ok t → extractQuestions t = none →
      llmStage env prov temp pm prompt =
        [BotAction.llmInvoke prov temp pm prompt,
         .sendMessage unparseableMsg] ∧
      pollsOfA (llmStage env prov temp pm prompt) = []) := by
  constructor
  · intro t i j v hf hl hij hp
    unfold extractQuestions
    rw [extractJsonText_of_brackets hf hl hij]
    exact hp
  · intro env prov temp pm prompt t hllm hx
    have h := @llmStage_unparseable env prov temp pm prompt t hllm hx
    refine ⟨h, ?_⟩
    rw [h]
    rfl

theorem c1_extraction_behaviour_witness :
    extractQuestions "x[1]y" = some (.arr [.num 1 0]) ∧
    llmStage envOkEmpty .chatOpenAI (7/10) "gpt-4o" "p" =
      [BotAction.llmInvoke .chatOpenAI (7/10) "gpt-4o" "p",
       .sendMessage unparseableMsg] := by
  constructor
  · exact c1_extraction_behaviour.1 "x[1]y" 1 3 (.arr [.num 1 0]) rfl rfl
      (by omega) rfl
  · exact (c1_extraction_behaviour.2 envOkEmpty .chatOpenAI (7/10) "gpt-4o"
      "p" "" rfl rfl).1

theorem c1_extraction_counterexample :
    extractQuestions "5[" = some (.num 5 0) ∧
    handleMessage envFiveBracket (some "/make_mcq gpt-4o x") =
      [BotAction.llmInvoke .chatOpenAI (7/10) "gpt-4o" (buildPrompt "x"),
       .sendMessage genericErrorMsg] ∧
    genericErrorMsg ≠ unparseableMsg :=
  ⟨rfl, rfl, by decide⟩

/-- C5 (amended): model resolution succeeds exactly when the token matches a
registry identifier case-insensitively (exact match, no partial or fuzzy
matching) and resolves to a matching registry identifier; and for every
command with a nonempty model token and nonempty content whose token matches
no registry identifier, exactly one invalid-model message is sent with no
LLM invocation and no poll.  (A no-match command whose content is empty gets
the missing-content message instead; see the counterexample.) -/
theorem c5_model_resolution :
    (∀ token : String,
      ((supportedModels.find?
          (fun m => jsToLower m == jsToLower token)).isSome ↔
        ∃ m ∈ supportedModels, jsToLower m = jsToLower token) ∧
      (∀ m, supportedModels.find?
          (fun m2 => jsToLower m2 == jsToLower token) = some m →
        m ∈ supportedModels ∧ jsToLower m = jsToLower token)) ∧
    (∀ (env : BotEnv) (t tok : String),
      jsStartsWith t "/make_mcq" = true →
      (jsSplit t ' ')[1]? = some tok →
      String.intercalate " " ((jsSplit t ' ').drop 2) ≠ "" →
      (jsSplit tok ' ').headD "" ≠ "" →
      supportedModels.find?
        (fun m => jsToLower m == jsToLower ((jsSplit tok ' ').headD "")) =
          none →
      handleMessage env (some t) = [.sendMessage invalidModelMsg]) := by
  constructor
  · intro token
    constructor
    · rw [List.find?_isSome]
      constructor
      · rintro ⟨m, hm, hp⟩
        exact ⟨m, hm, by simpa [beq_iff_eq] using hp⟩
      · rintro ⟨m, hm, hp⟩
        exact ⟨m, hm, by simp [beq_iff_eq, hp]⟩
    · intro m hm
      refine ⟨List.mem_of_find?_eq_some hm, ?_⟩
      have hp := List.find?_some hm
      simpa [beq_iff_eq] using hp
  · intro env t tok h1 h2 h3 h4 h5
    have ht : t ≠ "" := by
      intro he
      rw [he] at h1
      exact absurd h1 (by decide)
    have hcf : commandFlow env t = ([.sendMessage invalidModelMsg], none) := by
      unfold commandFlow
      simp only [h2]
      rw [if_neg h3, if_neg h4]
      simp only [h5]
    unfold handleMessage handleMessageFull handlerBody
    simp [ht, h1, hcf]

theorem c5_model_resolution_witness :
    (supportedModels.find?
      (fun m => jsToLower m == jsToLower "GPT-4O")).isSome = true ∧
    handleMessage envOkEmpty (some "/make_mcq unknownmodel xyz") =
      [.sendMessage invalidModelMsg] := by
  constructor
  · exact ((c5_model_resolution.1 "GPT-4O").1).mpr
      ⟨"gpt-4o", by decide, by decide⟩
  · exact c5_model_resolution.2 envOkEmpty "/make_mcq unknownmodel xyz"
      "unknownmodel" rfl rfl (by decide) (by decide) rfl

theorem c5_model_resolution_counterexample :
    handleMessage envOkEmpty (some "/make_mcq unknownmodel") =
      [.sendMessage contentMissingMsg] ∧
    supportedModels.find?
      (fun m => jsToLower m == jsToLower "unknownmodel") = none ∧
    contentMissingMsg ≠ invalidModelMsg :=
  ⟨rfl, rfl, by decide⟩

/-- C6 (amended): a nonempty text message is routed to the quiz-command
branch exactly when the text starts with the trigger string as a prefix (the
first keyword need not equal the trigger; see the counterexample); every
nonempty text not starting with the trigger gets the fallback help response,
which lists every registry model name; empty text gets no reply at all. -/
theorem c6_trigger_dispatch (env : BotEnv) (t : String) (ht : t ≠ "") :
    (jsStartsWith t "/make_mcq" = false →
      handleMessage env (some t) = [.sendMessage helpMsg] ∧
      ∀ m ∈ supportedModels, jsIncludes helpMsg m = true) ∧
    (jsStartsWith t "/make_mcq" = true →
      handlerBody env (some t) = commandFlow env t) := by
  constructor
  · intro h1
    constructor
    · unfold handleMessage handleMessageFull handlerBody
      simp [ht, h1]
    · decide
  · intro h1
    unfold handlerBody
    simp [ht, h1]

theorem c6_trigger_dispatch_witness :
    handleMessage envOkEmpty (some "hello") = [.sendMessage helpMsg] ∧
    ∀ m ∈ supportedModels, jsIncludes helpMsg m = true :=
  (c6_trigger_dispatch envOkEmpty "hello" (by decide)).1 (by decide)

theorem c6_trigger_dispatch_counterexample :
    firstKeyword "/make_mcqq gpt-4o hi" ≠ "/make_mcq" ∧
    handleMessage envOkEmpty (some "/make_mcqq gpt-4o hi") =
      [BotAction.llmInvoke .chatOpenAI (7/10) "gpt-4o" (buildPrompt "hi"),
       .sendMessage unparseableMsg] ∧
    handleMessage envOkEmpty (some "") = [] :=
  ⟨by decide, rfl, rfl⟩
